import Mathlib

/-!
# ChunkVault: verification of the chunking / replication / integrity core

Shallow embedding of the ChunkVault coordinator (`app.py`) and task runner
(`celery_app.py`).  Byte strings are modelled as `List Nat`; SHA-256 is an
explicit hash parameter `hash : Bytes → Nat` (the code only compares digests
for equality, never inspects them).  Database rows are records, the database
is lists of rows, and network I/O (storage-node PUT/GET responses) is passed
in as explicit response functions.  UUIDs are modelled as `Nat` identifiers:
the only property the code uses is their uniqueness.
-/

namespace ChunkVault

/-- Raw byte strings (each element one byte). -/
abbrev Bytes := List Nat

/-- Constant `CHUNK_SIZE = 4 * 1024 * 1024` (app.py line 40). -/
def CHUNK_SIZE : Nat := 4 * 1024 * 1024

/-- Constant `REPLICATION_FACTOR = 3` (app.py line 41). -/
def REPLICATION_FACTOR : Nat := 3

/-- The configured storage nodes (app.py lines 43-47). -/
def STORAGE_NODES : List String :=
  ["http://localhost:8001", "http://localhost:8002", "http://localhost:8003"]

/-- Quorum `Q = R // 2 + 1` (celery_app.py line 85). -/
def quorum (r : Nat) : Nat := r / 2 + 1

/-- File lifecycle status (app.py `File.status`). -/
inductive FileStatus
  | uploading
  | completed
  | failed
  | verified
  | corrupted
  deriving DecidableEq, Repr

/-- Chunk lifecycle status (app.py `Chunk.status`). -/
inductive ChunkStatus
  | pending
  | stored
  | failed
  deriving DecidableEq, Repr

/-- A row of the `files` table (app.py lines 146-160), restricted to the
columns the modelled operations read. -/
structure FileRow where
  id : Nat
  filename : String
  owner_id : Nat
  size : Nat
  mime_type : String
  status : FileStatus
  checksum : Nat
  chunk_count : Nat
  deriving DecidableEq, Repr

/-- A row of the `chunks` table (app.py lines 162-172). -/
structure ChunkRow where
  id : Nat
  file_id : Nat
  chunk_index : Nat
  size : Nat
  checksum : Nat
  status : ChunkStatus
  deriving DecidableEq, Repr

/-- A row of the `chunk_replicas` table (app.py lines 174-180).  The primary
key string `f"{chunk_id}_{node_url}"` is injective in the pair (uuid chunk
ids contain no underscore), so the row is modelled by the pair itself. -/
structure ReplicaRow where
  chunk_id : Nat
  storage_node_id : String
  deriving DecidableEq, Repr

/-- A row of the `file_shares` table (app.py lines 182-190). -/
structure ShareRow where
  id : Nat
  file_id : Nat
  owner_id : Nat
  share_token : Nat
  expires_at : Option Nat
  access_count : Nat
  deriving DecidableEq, Repr

/-- The metadata-store state seen by the coordinator endpoints. -/
structure MetaDB where
  files : List FileRow
  chunks : List ChunkRow
  replicas : List ReplicaRow
  shares : List ShareRow
  deriving DecidableEq, Repr

/-- Function `calculate_checksum` (app.py lines 272-273): SHA-256 of the data,
with the hash function passed explicitly. -/
def calculate_checksum (hash : Bytes → Nat) (data : Bytes) : Nat := hash data

/-- Python truthiness of an optional byte string: `if cached_data:` is false
both for `None` and for the empty byte string `b""`. -/
def bytesTruthy : Option Bytes → Bool
  | some d => !d.isEmpty
  | none => false

/-- The probe loop of `retrieve_chunk_from_nodes` (app.py lines 308-319):
try each node in order, return the body of the first 200 response; a non-200
status or a raised exception is a miss.  No digest check is performed. -/
def firstHit (resp : String → Option Bytes) : List String → Option Bytes
  | [] => none
  | node :: rest =>
    match resp node with
    | some d => some d
    | none => firstHit resp rest

/-- Function `retrieve_chunk_from_nodes` (app.py lines 298-319): serve from the chunk
cache when the cached value is truthy, otherwise probe the replica nodes in
order and return the first successful response body; `None` after all nodes
have been tried. -/
def retrieve_chunk_from_nodes (cached : Option Bytes) (storage_nodes : List String)
    (resp : String → Option Bytes) : Option Bytes :=
  if bytesTruthy cached then cached
  else firstHit resp storage_nodes

/-- Download / share-download error outcomes (HTTP 404, 500, 410). -/
inductive DlErr
  | notFound
  | chunkUnavailable
  | expired
  deriving DecidableEq, Repr

/-- Insertion step for sorting chunk rows by `chunk_index`. -/
def insertByIndex (c : ChunkRow) : List ChunkRow → List ChunkRow
  | [] => [c]
  | d :: ds => if c.chunk_index ≤ d.chunk_index then c :: d :: ds else d :: insertByIndex c ds

/-- The `ORDER BY chunk_index` of the chunk query (app.py lines 553-555),
modelled as an insertion sort on the filtered rows. -/
def sortByIndex : List ChunkRow → List ChunkRow
  | [] => []
  | c :: cs => insertByIndex c (sortByIndex cs)

/-- The replica nodes recorded for a chunk (app.py lines 560-561). -/
def replicaNodes (db : MetaDB) (cid : Nat) : List String :=
  (db.replicas.filter (fun r => r.chunk_id == cid)).map (fun r => r.storage_node_id)

/-- The per-chunk retrieval loop shared by `download_file` (app.py lines
557-570) and `download_shared_file` (app.py lines 662-673): enumerate the
file's chunks by ascending index, resolve each from cache or replicas,
fail with HTTP 500 when a chunk cannot be resolved, and join the payloads. -/
def fetchFileBytes (file_id : Nat) (chunkCache : Nat → Option Bytes)
    (resp : String → Nat → Option Bytes) (db : MetaDB) : Except DlErr Bytes := do
  let chunks := sortByIndex (db.chunks.filter (fun c => c.file_id == file_id))
  let datas ← chunks.mapM (fun c =>
    match retrieve_chunk_from_nodes (chunkCache c.id) (replicaNodes db c.id)
        (fun u => resp u c.id) with
    | some d => pure d
    | none => Except.error DlErr.chunkUnavailable)
  return datas.flatten

/-- Endpoint `download_file` (app.py lines 515-579).  When the file metadata is in the
cache the cached row is used directly (`File(**cached_metadata)`) and no
owner comparison happens; only the database branch filters by
`File.owner_id == current_user.id` and raises 404 otherwise. -/
def download_file (file_id requester_id : Nat) (cached_metadata : Option FileRow)
    (chunkCache : Nat → Option Bytes) (resp : String → Nat → Option Bytes)
    (db : MetaDB) : Except DlErr Bytes := do
  let _file_record ←
    match cached_metadata with
    | some m => pure m
    | none =>
      match db.files.find? (fun f => f.id == file_id && f.owner_id == requester_id) with
      | none => Except.error DlErr.notFound
      | some f => pure f
  fetchFileBytes file_id chunkCache resp db

/-- The check `if share_record.expires_at and share_record.expires_at < datetime.utcnow()`
(app.py line 647), with timestamps as naturals. -/
def expiredCheck (s : ShareRow) (now : Nat) : Bool :=
  match s.expires_at with
  | some t => t < now
  | none => false

/-- The access-count update of `download_shared_file` (app.py lines 650-652).
When the share row came out of the cache it is a freshly constructed object
(`FileShare(**cached_share)`) that was never added to the session, so
`share_record.access_count += 1; db.commit()` persists nothing; only a row
loaded from the database is attached and gets its counter committed. -/
def incrementShare (db : MetaDB) (share_token : Nat) (fromCache : Bool) : MetaDB :=
  if fromCache then db
  else
    { db with
      shares := db.shares.map (fun s =>
        if s.share_token == share_token then { s with access_count := s.access_count + 1 }
        else s) }

/-- Share-record resolution of `download_shared_file` (app.py lines 624-645):
cache first, then the database; the boolean records which branch was taken. -/
def resolveShare (share_token : Nat) (cached_share : Option ShareRow)
    (db : MetaDB) : Option (ShareRow × Bool) :=
  match cached_share with
  | some s => some (s, true)
  | none =>
    match db.shares.find? (fun s => s.share_token == share_token) with
    | some s => some (s, false)
    | none => none

/-- Endpoint `download_shared_file` (app.py lines 621-682): resolve the share, reject
expired shares with HTTP 410 before touching the counter, increment the
counter (committed only on the database branch), then fetch the file bytes
exactly like `download_file`.  Returns the HTTP outcome together with the
database state after the handler. -/
def download_shared_file (share_token now : Nat) (cached_share : Option ShareRow)
    (chunkCache : Nat → Option Bytes) (resp : String → Nat → Option Bytes)
    (db : MetaDB) : Except DlErr Bytes × MetaDB :=
  match resolveShare share_token cached_share db with
  | none => (Except.error DlErr.notFound, db)
  | some (s, fromCache) =>
    if expiredCheck s now then (Except.error DlErr.expired, db)
    else
      let db' := incrementShare db share_token fromCache
      match db'.files.find? (fun f => f.id == s.file_id) with
      | none => (Except.error DlErr.notFound, db')
      | some _ => (fetchFileBytes s.file_id chunkCache resp db', db')

/-- Function `assign_storage_nodes` (app.py lines 275-278):
`random.sample(STORAGE_NODES, min(REPLICATION_FACTOR, len(STORAGE_NODES)))`.
The pool sampled from is the static `STORAGE_NODES` list — node health is
not consulted.  `random.sample` is modelled by an explicit sampling function
`sample l k` standing for one draw of `k` distinct elements from `l`. -/
def assign_storage_nodes (sample : List String → Nat → List String) : List String :=
  sample STORAGE_NODES (min REPLICATION_FACTOR STORAGE_NODES.length)

/-- Modelled from the spec (the healthy-aware placement of §4.1 step 3 is
absent from src/app.py): draw the placement from the currently healthy
nodes and fail the chunk immediately — no replication attempted — when
fewer than `Q` nodes are healthy. -/
def specPlacement (sample : List String → Nat → List String)
    (healthy : List String) : Option (List String) :=
  if healthy.length < quorum REPLICATION_FACTOR then none
  else some (sample healthy (min REPLICATION_FACTOR healthy.length))

/-- One slice of the upload split (app.py lines 431-433):
`file_data[i*CHUNK_SIZE : min((i+1)*CHUNK_SIZE, size)]`. -/
def chunkSlice (file_data : Bytes) (i : Nat) : Bytes :=
  (file_data.drop (i * CHUNK_SIZE)).take CHUNK_SIZE

/-- The count `chunk_count = (file_size + CHUNK_SIZE - 1) // CHUNK_SIZE`
(app.py line 414). -/
def chunk_count_of (size : Nat) : Nat := (size + CHUNK_SIZE - 1) / CHUNK_SIZE

/-- The chunk row created in iteration `i` of the upload loop (app.py lines
436-444), with its status after replication (lines 451-462).  Chunk uuids
are modelled by the chunk index (uniqueness is their only used property). -/
def chunkRowOf (hash : Bytes → Nat) (file_id : Nat) (file_data : Bytes)
    (succ : Nat → Bool) (i : Nat) : ChunkRow :=
  { id := i, file_id := file_id, chunk_index := i,
    size := (chunkSlice file_data i).length,
    checksum := calculate_checksum hash (chunkSlice file_data i),
    status := if succ i then ChunkStatus.stored else ChunkStatus.failed }

/-- Everything the upload loop produced: the committed chunk rows, the
replica rows the coordinator itself inserts (app.py lines 453-460, one per
assigned node), the chunk payloads now held by the storage nodes, and
whether every chunk replicated successfully. -/
structure UploadLoopOut where
  chunk_records : List ChunkRow
  replica_records : List ReplicaRow
  nodeStore : List (Nat × Bytes)
  allOk : Bool
  deriving DecidableEq, Repr

/-- The per-chunk loop of `upload_file` (app.py lines 430-466): slice, create
the chunk row, replicate (the awaited task outcome for chunk `i` is
`succ i`), and on the first failure mark the chunk failed and stop — chunks
with higher indices are never created.  `i` is the next index, `n` the
number of indices left. -/
def processChunks (hash : Bytes → Nat) (file_id : Nat) (file_data : Bytes)
    (nodesOf : Nat → List String) (succ : Nat → Bool) :
    Nat → Nat → UploadLoopOut
  | _, 0 => { chunk_records := [], replica_records := [], nodeStore := [], allOk := true }
  | i, n + 1 =>
    let row := chunkRowOf hash file_id file_data succ i
    if succ i then
      let rest := processChunks hash file_id file_data nodesOf succ (i + 1) n
      { chunk_records := row :: rest.chunk_records,
        replica_records :=
          (nodesOf i).map (fun u => { chunk_id := i, storage_node_id := u })
            ++ rest.replica_records,
        nodeStore := (i, chunkSlice file_data i) :: rest.nodeStore,
        allOk := rest.allOk }
    else
      { chunk_records := [row], replica_records := [], nodeStore := [], allOk := false }

/-- The state committed by `upload_file` (app.py lines 406-487). -/
structure UploadState where
  file_record : FileRow
  chunk_records : List ChunkRow
  replica_records : List ReplicaRow
  nodeStore : List (Nat × Bytes)
  deriving DecidableEq, Repr

/-- The body of `upload_file` with the chunk count as an explicit parameter
(the count is always `chunk_count_of file_data.length`; keeping it a
parameter lets the lemmas below quantify over it). -/
def upload_core (hash : Bytes → Nat) (file_id owner_id : Nat)
    (filename mime_type : String) (file_data : Bytes)
    (nodesOf : Nat → List String) (succ : Nat → Bool) (cc : Nat) : UploadState :=
  let file_size := file_data.length
  let file_checksum := calculate_checksum hash file_data
  let out := processChunks hash file_id file_data nodesOf succ 0 cc
  { file_record :=
      { id := file_id, filename := filename, owner_id := owner_id, size := file_size,
        mime_type := mime_type,
        status := if out.allOk then FileStatus.completed else FileStatus.failed,
        checksum := file_checksum, chunk_count := cc },
    chunk_records := out.chunk_records,
    replica_records := out.replica_records,
    nodeStore := out.nodeStore }

/-- Endpoint `upload_file` (app.py lines 406-487): hash the whole payload, split it
into `⌈size/CHUNK_SIZE⌉` slices, replicate each (placement `nodesOf i`,
awaited task success `succ i`), and commit the file as `completed` iff no
chunk failed, as `failed` otherwise. -/
def upload_file (hash : Bytes → Nat) (file_id owner_id : Nat)
    (filename mime_type : String) (file_data : Bytes)
    (nodesOf : Nat → List String) (succ : Nat → Bool) : UploadState :=
  upload_core hash file_id owner_id filename mime_type file_data nodesOf succ
    (chunk_count_of file_data.length)

/-- The database state the `replicate_chunk` task reads and writes
(celery_app.py opens its own session over the same tables). -/
structure TaskDB where
  chunks : List ChunkRow
  replicas : List ReplicaRow
  deriving DecidableEq, Repr

/-- The dictionary returned by `replicate_chunk` (celery_app.py lines
102-107), with the status string as `ChunkStatus`. -/
structure TaskResult where
  chunk_id : Nat
  success_count : Nat
  failed_nodes : List String
  status : ChunkStatus
  deriving DecidableEq, Repr

/-- Outcome of one `replicate_chunk` execution.  `integrityError` is the
path where the commit violates the `chunk_replicas` primary key (a replica
row with the same `f"{chunk_id}_{node_url}"` id already exists): the
transaction is rolled back, the database is left as before, and the task
raises (and is retried) instead of returning a result. -/
inductive RepOutcome
  | ok (db : TaskDB) (res : TaskResult)
  | integrityError (db : TaskDB)
  deriving DecidableEq, Repr

/-- The nodes collected into `failed_nodes` (celery_app.py lines 62-78):
those whose PUT did not return 200. -/
def failedNodes (putOk : String → Bool) (storage_nodes : List String) : List String :=
  storage_nodes.filter (fun n => !putOk n)

/-- Whether inserting `new` into a table already holding `existing` violates
the primary key: some new row's key already exists, or the same key is
inserted twice in this transaction. -/
def insertCollides (existing new : List ReplicaRow) : Bool :=
  new.any (fun r => decide (r ∈ existing)) || !(decide new.Nodup)

/-- Task `replicate_chunk` (celery_app.py lines 55-111): PUT the payload to every
node (`putOk u` is whether node `u` returned 200), count acknowledgements,
then in one transaction set the chunk `stored` and insert a replica row per
acknowledged node when the count reaches quorum, else set it `failed`.  A
missing chunk row skips the update but the result is still returned. -/
def replicate_chunk (putOk : String → Bool) (chunk_id : Nat)
    (storage_nodes : List String) (replication_factor : Nat) (db : TaskDB) : RepOutcome :=
  let success_count := (storage_nodes.filter putOk).length
  let failed := failedNodes putOk storage_nodes
  let res : TaskResult :=
    { chunk_id := chunk_id, success_count := success_count, failed_nodes := failed,
      status :=
        if success_count ≥ replication_factor / 2 + 1 then ChunkStatus.stored
        else ChunkStatus.failed }
  match db.chunks.find? (fun c => c.id == chunk_id) with
  | none => RepOutcome.ok db res
  | some _ =>
    if success_count ≥ replication_factor / 2 + 1 then
      let newReplicas :=
        (storage_nodes.filter (fun n => !(decide (n ∈ failed)))).map
          (fun n => { chunk_id := chunk_id, storage_node_id := n : ReplicaRow })
      if insertCollides db.replicas newReplicas then RepOutcome.integrityError db
      else
        RepOutcome.ok
          { chunks := db.chunks.map (fun c =>
              if c.id == chunk_id then { c with status := ChunkStatus.stored } else c),
            replicas := db.replicas ++ newReplicas } res
    else
      RepOutcome.ok
        { db with
          chunks := db.chunks.map (fun c =>
            if c.id == chunk_id then { c with status := ChunkStatus.failed } else c) } res

/-- One entry of the `corrupted_chunks` list built by `verify_file_integrity`
(celery_app.py lines 146-156): either a digest mismatch with the stored
digest reported as `expected_checksum`, or the `"chunk_not_found"` error
dict when no node yielded a payload. -/
inductive CorruptedEntry
  | mismatch (chunk_id expected_checksum calculated_checksum : Nat)
  | chunk_not_found (chunk_id : Nat)
  deriving DecidableEq, Repr

/-- Verification status string of the returned dict. -/
inductive VerifyStatus
  | verified
  | corrupted
  | not_found
  deriving DecidableEq, Repr

/-- The dict returned by `verify_file_integrity` (celery_app.py lines
165-169). -/
structure VerifyResult where
  file_id : Nat
  status : VerifyStatus
  corrupted_chunks : List CorruptedEntry
  deriving DecidableEq, Repr

/-- The fetch loop of `verify_file_integrity` (celery_app.py lines 133-141):
first 200 response across the chunk's replica nodes, `None` otherwise. -/
def fetchChunkData (resp : String → Nat → Option Bytes) (nodes : List String)
    (cid : Nat) : Option Bytes :=
  firstHit (fun node => resp node cid) nodes

/-- The per-chunk check of `verify_file_integrity` (celery_app.py lines
143-156).  Python's `if chunk_data:` is false for `None` and for `b""`, so
an empty payload also lands in the `"chunk_not_found"` branch. -/
def verifyChunkEntry (hash : Bytes → Nat) (resp : String → Nat → Option Bytes)
    (db : MetaDB) (c : ChunkRow) : Option CorruptedEntry :=
  match fetchChunkData resp (replicaNodes db c.id) c.id with
  | some d =>
    if d.isEmpty then some (CorruptedEntry.chunk_not_found c.id)
    else if hash d ≠ c.checksum then
      some (CorruptedEntry.mismatch c.id c.checksum (hash d))
    else none
  | none => some (CorruptedEntry.chunk_not_found c.id)

/-- Task `verify_file_integrity` (celery_app.py lines 113-175): for every chunk of
the file fetch one surviving replica, compare digests, collect the corrupted
entries, and set the file status to `corrupted` when the list is non-empty,
`verified` otherwise. -/
def verify_file_integrity (hash : Bytes → Nat) (resp : String → Nat → Option Bytes)
    (db : MetaDB) (file_id : Nat) : MetaDB × VerifyResult :=
  match db.files.find? (fun f => f.id == file_id) with
  | none => (db, { file_id := file_id, status := VerifyStatus.not_found, corrupted_chunks := [] })
  | some _ =>
    let chunks := db.chunks.filter (fun c => c.file_id == file_id)
    let corrupted := chunks.filterMap (verifyChunkEntry hash resp db)
    let newStatus :=
      if corrupted.isEmpty then FileStatus.verified else FileStatus.corrupted
    ({ db with
       files := db.files.map (fun f =>
         if f.id == file_id then { f with status := newStatus } else f) },
     { file_id := file_id,
       status := if corrupted.isEmpty then VerifyStatus.verified else VerifyStatus.corrupted,
       corrupted_chunks := corrupted })

/-- A concrete stand-in digest function for closed evaluations (injective on
short byte strings, which is all the counterexamples need). -/
def demoHash (d : Bytes) : Nat :=
  d.foldl (fun a b => a * 256 + b % 256 + 1) 1

/-! ## Theorems -/

/-- A one-chunk file owned by user 10, status completed. -/
def c1_file : FileRow :=
  { id := 1, filename := "a.txt", owner_id := 10, size := 1, mime_type := "text/plain",
    status := FileStatus.completed, checksum := 0, chunk_count := 1 }

/-- Metadata store holding `c1_file`, its single chunk and one replica. -/
def c1_db : MetaDB :=
  { files := [c1_file],
    chunks := [{ id := 0, file_id := 1, chunk_index := 0, size := 1, checksum := 0,
                 status := ChunkStatus.stored }],
    replicas := [{ chunk_id := 0, storage_node_id := "http://localhost:8001" }],
    shares := [] }

/-- C1: the claim says a non-owner download fails (AuthDenied/NotFound)
regardless of whether the file metadata is cached.  The code violates this:
when the metadata is in the cache, `download_file` builds the file record
from the cached dict and never compares `owner_id` with the requester, so
requester 99 receives the payload of the file owned by user 10; the same
request against a cold cache is correctly refused with 404, showing the
ownership check was intended. -/
theorem c1_cached_download_skips_owner_check :
    download_file 1 99 (some c1_file) (fun _ => none) (fun _ _ => some [42]) c1_db
      = Except.ok [42]
    ∧ download_file 1 99 none (fun _ => none) (fun _ _ => some [42]) c1_db
      = Except.error DlErr.notFound := by
  constructor <;> rfl

/-- C2: the claim says a replica payload is accepted only when its SHA-256
digest equals the stored chunk digest, a mismatch being treated as a miss.
Counterexample: for a chunk whose stored digest is `demoHash [1]` (the
digest of its true payload `[1]`), the first node returns the corrupted
payload `[9]` and `retrieve_chunk_from_nodes` returns it as-is — the digest
is never recomputed and the second node, which holds the intact payload, is
never tried. -/
theorem c2_counterexample :
    retrieve_chunk_from_nodes none ["http://localhost:8001", "http://localhost:8002"]
      (fun u => if u == "http://localhost:8001" then some [9] else some [1]) = some [9]
    ∧ demoHash [9] ≠ demoHash [1] := by
  constructor
  · rfl
  · decide

theorem firstHit_eq_none_iff (resp : String → Option Bytes) (nodes : List String) :
    firstHit resp nodes = none ↔ ∀ u ∈ nodes, resp u = none := by
  induction nodes with
  | nil => simp [firstHit]
  | cons v rest ih =>
    simp only [firstHit]
    cases hv : resp v with
    | some d => simp [hv]
    | none => simpa [hv] using ih

theorem firstHit_skip_misses (resp : String → Option Bytes) (pre : List String)
    (u : String) (post : List String) (d : Bytes)
    (hpre : ∀ v ∈ pre, resp v = none) (hu : resp u = some d) :
    firstHit resp (pre ++ u :: post) = some d := by
  induction pre with
  | nil => simp [firstHit, hu]
  | cons w ws ih =>
    have hw : resp w = none := hpre w (List.mem_cons_self w ws)
    simp only [List.cons_append, firstHit, hw]
    exact ih (fun v hv => hpre v (List.mem_cons_of_mem w hv))

/-- C2 (amended): on a chunk-cache miss, a payload obtained from a replica
node is accepted exactly when the node responds successfully — no digest
verification happens; an unsuccessful node is skipped and the next replica
tried, and the read yields `None` (surfaced as ChunkUnavailable) iff every
replica of the chunk has been tried without any successful response. -/
theorem c2_read_accepts_first_success (cached : Option Bytes) (nodes : List String)
    (resp : String → Option Bytes) (hc : bytesTruthy cached = false) :
    (retrieve_chunk_from_nodes cached nodes resp = none ↔ ∀ u ∈ nodes, resp u = none)
    ∧ (∀ (pre : List String) (u : String) (post : List String) (d : Bytes),
        nodes = pre ++ u :: post → (∀ v ∈ pre, resp v = none) → resp u = some d →
        retrieve_chunk_from_nodes cached nodes resp = some d) := by
  unfold retrieve_chunk_from_nodes
  rw [hc]
  simp only [Bool.false_eq_true, if_false]
  exact ⟨firstHit_eq_none_iff resp nodes,
    fun pre u post d hsplit hpre hu => by
      rw [hsplit]; exact firstHit_skip_misses resp pre u post d hpre hu⟩

/-- Witness for C2 (amended): concrete two-node instance where the first
node misses and the second responds; the retrieval returns the second
node's payload. -/
theorem c2_read_accepts_first_success_witness :
    bytesTruthy none = false
    ∧ ((retrieve_chunk_from_nodes none ["http://localhost:8001", "http://localhost:8002"]
          (fun u => if u == "http://localhost:8002" then some [5] else none) = none
        ↔ ∀ u ∈ ["http://localhost:8001", "http://localhost:8002"],
            (fun u => if u == "http://localhost:8002" then some [5] else none) u = none)
      ∧ (∀ (pre : List String) (u : String) (post : List String) (d : Bytes),
          ["http://localhost:8001", "http://localhost:8002"] = pre ++ u :: post →
          (∀ v ∈ pre, (fun u => if u == "http://localhost:8002" then some [5] else none) v = none) →
          (fun u => if u == "http://localhost:8002" then some [5] else none) u = some d →
          retrieve_chunk_from_nodes none ["http://localhost:8001", "http://localhost:8002"]
            (fun u => if u == "http://localhost:8002" then some [5] else none) = some d)) :=
  ⟨rfl, c2_read_accepts_first_success none
    ["http://localhost:8001", "http://localhost:8002"]
    (fun u => if u == "http://localhost:8002" then some [5] else none) rfl⟩

theorem ackFilter_eq (putOk : String → Bool) (nodes : List String) :
    nodes.filter (fun n => !(decide (n ∈ failedNodes putOk nodes))) = nodes.filter putOk := by
  apply List.filter_congr
  intro a ha
  simp [failedNodes, List.mem_filter, ha]

/-- C4: for one execution of the Replicate task, the returned status and the
committed chunk status are `stored` iff the number of nodes that
acknowledged the PUT reaches `Q = R/2 + 1`, and `failed` otherwise; on
success exactly one replica row per acknowledged node is inserted, so the
stored chunk ends up with at least `Q` replica rows.  Hypotheses: the chunk
row exists, the placement has no duplicate node (`random.sample` draws
without replacement), and the chunk has no pre-existing replica rows. -/
theorem c4_replicate_quorum (putOk : String → Bool) (chunk_id : Nat)
    (storage_nodes : List String) (R : Nat) (db : TaskDB)
    (hfound : (db.chunks.find? (fun c => c.id == chunk_id)).isSome = true)
    (hnodup : storage_nodes.Nodup)
    (hfresh : ∀ r ∈ db.replicas, r.chunk_id ≠ chunk_id) :
    (quorum R ≤ (storage_nodes.filter putOk).length →
       replicate_chunk putOk chunk_id storage_nodes R db =
         RepOutcome.ok
           { chunks := db.chunks.map (fun c =>
               if c.id == chunk_id then { c with status := ChunkStatus.stored } else c),
             replicas := db.replicas ++ (storage_nodes.filter putOk).map
               (fun n => { chunk_id := chunk_id, storage_node_id := n }) }
           { chunk_id := chunk_id, success_count := (storage_nodes.filter putOk).length,
             failed_nodes := failedNodes putOk storage_nodes, status := ChunkStatus.stored }
       ∧ quorum R ≤ ((db.replicas ++ (storage_nodes.filter putOk).map
             (fun n => { chunk_id := chunk_id, storage_node_id := n : ReplicaRow })).filter
             (fun r => r.chunk_id == chunk_id)).length)
    ∧ ((storage_nodes.filter putOk).length < quorum R →
       replicate_chunk putOk chunk_id storage_nodes R db =
         RepOutcome.ok
           { db with chunks := db.chunks.map (fun c =>
               if c.id == chunk_id then { c with status := ChunkStatus.failed } else c) }
           { chunk_id := chunk_id, success_count := (storage_nodes.filter putOk).length,
             failed_nodes := failedNodes putOk storage_nodes, status := ChunkStatus.failed }) := by
  obtain ⟨c, hc⟩ := Option.isSome_iff_exists.mp hfound
  have hmk : Function.Injective
      (fun n => { chunk_id := chunk_id, storage_node_id := n : ReplicaRow }) := by
    intro a b hab
    exact congrArg ReplicaRow.storage_node_id hab
  have hack := ackFilter_eq putOk storage_nodes
  constructor
  · intro hq
    have hq' : (storage_nodes.filter putOk).length ≥ R / 2 + 1 := hq
    have hnocol : insertCollides db.replicas
        ((storage_nodes.filter putOk).map
          (fun n => { chunk_id := chunk_id, storage_node_id := n : ReplicaRow })) = false := by
      unfold insertCollides
      simp only [Bool.or_eq_false_iff, List.any_eq_false, Bool.not_eq_false', decide_eq_true_eq,
        decide_eq_false_iff_not]
      refine ⟨?_, ?_⟩
      · intro r hr hmem
        obtain ⟨n, _, rfl⟩ := List.mem_map.mp hr
        exact hfresh _ hmem rfl
      · exact (hnodup.filter putOk).map hmk
    have hfilters :
        ((db.replicas ++ (storage_nodes.filter putOk).map
            (fun n => { chunk_id := chunk_id, storage_node_id := n : ReplicaRow })).filter
            (fun r => r.chunk_id == chunk_id)).length
          = (storage_nodes.filter putOk).length := by
      rw [List.filter_append]
      have h1 : db.replicas.filter (fun r => r.chunk_id == chunk_id) = [] := by
        simp only [List.filter_eq_nil_iff, beq_iff_eq]
        exact hfresh
      have h2 : ((storage_nodes.filter putOk).map
          (fun n => { chunk_id := chunk_id, storage_node_id := n : ReplicaRow })).filter
            (fun r => r.chunk_id == chunk_id)
          = (storage_nodes.filter putOk).map
              (fun n => { chunk_id := chunk_id, storage_node_id := n : ReplicaRow }) := by
        apply List.filter_eq_self.mpr
        intro r hr
        obtain ⟨n, _, rfl⟩ := List.mem_map.mp hr
        exact beq_self_eq_true chunk_id
      rw [h1, h2]
      simp
    refine ⟨?_, ?_⟩
    · simp only [replicate_chunk, hc]
      rw [hack]
      simp only [if_pos hq', hnocol, Bool.false_eq_true, if_false]
    · rw [hfilters]; exact hq
  · intro hlt
    have hlt' : ¬ ((storage_nodes.filter putOk).length ≥ R / 2 + 1) := by
      simpa [quorum] using hlt
    simp only [replicate_chunk, hc]
    simp only [if_neg hlt']

/-- PUT acknowledgement pattern for the C4 witness: nodes 1 and 2 return
200, node 3 fails. -/
def twoAckNodes (n : String) : Bool := n != "http://localhost:8003"

/-- A task-runner database holding one pending chunk and no replicas. -/
def c4_db : TaskDB :=
  { chunks := [{ id := 1, file_id := 0, chunk_index := 0, size := 1, checksum := 0,
                 status := ChunkStatus.pending }],
    replicas := [] }

/-- Witness for C4: nodes 1 and 2 acknowledge, node 3 fails; with `R = 3`
that is `2 ≥ Q = 2`, so the task stores the chunk and inserts exactly the
two replica rows. -/
theorem c4_replicate_quorum_witness :
    ((c4_db.chunks.find? (fun c => c.id == 1)).isSome = true)
    ∧ STORAGE_NODES.Nodup
    ∧ (∀ r ∈ c4_db.replicas, r.chunk_id ≠ 1)
    ∧ ((quorum 3 ≤ (STORAGE_NODES.filter twoAckNodes).length →
        replicate_chunk twoAckNodes 1 STORAGE_NODES 3 c4_db =
          RepOutcome.ok
            { chunks := c4_db.chunks.map (fun c =>
                if c.id == 1 then { c with status := ChunkStatus.stored } else c),
              replicas := c4_db.replicas ++ (STORAGE_NODES.filter twoAckNodes).map
                (fun n => { chunk_id := 1, storage_node_id := n }) }
            { chunk_id := 1, success_count := (STORAGE_NODES.filter twoAckNodes).length,
              failed_nodes := failedNodes twoAckNodes STORAGE_NODES,
              status := ChunkStatus.stored }
        ∧ quorum 3 ≤ ((c4_db.replicas ++ (STORAGE_NODES.filter twoAckNodes).map
              (fun n => { chunk_id := 1, storage_node_id := n : ReplicaRow })).filter
              (fun r => r.chunk_id == 1)).length)
      ∧ ((STORAGE_NODES.filter twoAckNodes).length < quorum 3 →
        replicate_chunk twoAckNodes 1 STORAGE_NODES 3 c4_db =
          RepOutcome.ok
            { c4_db with chunks := c4_db.chunks.map (fun c =>
                if c.id == 1 then { c with status := ChunkStatus.failed } else c) }
            { chunk_id := 1, success_count := (STORAGE_NODES.filter twoAckNodes).length,
              failed_nodes := failedNodes twoAckNodes STORAGE_NODES,
              status := ChunkStatus.failed })) :=
  ⟨by decide, by decide, by decide,
    c4_replicate_quorum twoAckNodes 1 STORAGE_NODES 3 c4_db (by decide) (by decide) (by decide)⟩

/-- A task-runner database after a successful first Replicate run: the chunk
is `stored` and holds `Q = 2` replica rows. -/
def c6_db : TaskDB :=
  { chunks := [{ id := 1, file_id := 0, chunk_index := 0, size := 1, checksum := 0,
                 status := ChunkStatus.stored }],
    replicas := [{ chunk_id := 1, storage_node_id := "http://localhost:8001" },
                 { chunk_id := 1, storage_node_id := "http://localhost:8002" }] }

/-- C6: the claim says colliding replica inserts are safely absorbed when the
Replicate task runs a second time.  Counterexample: re-running the task for
chunk 1, which already holds its `Q = 2` replica rows, re-inserts rows whose
primary key `f"{chunk_id}_{node_url}"` already exists; the commit raises
IntegrityError instead of completing, so the task errors out and retries.
The rolled-back transaction does leave the rows and the chunk status
unchanged (`integrityError c6_db` carries the untouched database), but not
by absorbing the collision. -/
theorem c6_counterexample :
    replicate_chunk (fun _ => true) 1 STORAGE_NODES 3 c6_db
      = RepOutcome.integrityError c6_db := by
  decide

/-- C6 (amended): re-running the Replicate task for a chunk that already has
a replica row on any node that acknowledges again does leave the set of
Replica rows and the Chunk status unchanged, but not because the colliding
inserts are absorbed: the duplicate primary key makes the commit raise, the
transaction rolls back (the returned database is exactly the input
database), and the task raises and is retried instead of succeeding. -/
theorem c6_rerun_integrity_error (putOk : String → Bool) (chunk_id : Nat)
    (storage_nodes : List String) (R : Nat) (db : TaskDB)
    (hfound : (db.chunks.find? (fun c => c.id == chunk_id)).isSome = true)
    (hq : (storage_nodes.filter putOk).length ≥ R / 2 + 1)
    (hcol : ∃ r ∈ db.replicas, r.chunk_id = chunk_id
        ∧ r.storage_node_id ∈ storage_nodes.filter putOk) :
    replicate_chunk putOk chunk_id storage_nodes R db = RepOutcome.integrityError db := by
  obtain ⟨c, hc⟩ := Option.isSome_iff_exists.mp hfound
  have hack := ackFilter_eq putOk storage_nodes
  have hcol' : insertCollides db.replicas
      ((storage_nodes.filter putOk).map
        (fun n => { chunk_id := chunk_id, storage_node_id := n : ReplicaRow })) = true := by
    obtain ⟨r, hr, hcid, hnode⟩ := hcol
    unfold insertCollides
    apply Bool.or_eq_true_iff.mpr
    left
    apply List.any_eq_true.mpr
    refine ⟨r, ?_, by simpa using hr⟩
    obtain ⟨cid, node⟩ := r
    simp only at hcid hnode
    subst hcid
    exact List.mem_map.mpr ⟨node, hnode, rfl⟩
  simp only [replicate_chunk, hc]
  rw [hack]
  simp only [if_pos hq, hcol', if_true]

/-- Witness for C6 (amended): re-running with all three nodes acknowledging
against `c6_db` hits the primary-key collision and returns the database
unchanged. -/
theorem c6_rerun_integrity_error_witness :
    ((c6_db.chunks.find? (fun c => c.id == 1)).isSome = true)
    ∧ (STORAGE_NODES.filter (fun _ => true)).length ≥ 3 / 2 + 1
    ∧ (∃ r ∈ c6_db.replicas, r.chunk_id = 1
        ∧ r.storage_node_id ∈ STORAGE_NODES.filter (fun _ => true))
    ∧ replicate_chunk (fun _ => true) 1 STORAGE_NODES 3 c6_db
        = RepOutcome.integrityError c6_db :=
  ⟨by decide, by decide, by decide,
    c6_rerun_integrity_error (fun _ => true) 1 STORAGE_NODES 3 c6_db
      (by decide) (by decide) (by decide)⟩

theorem chunkSlice_flatten (B : Bytes) (n : Nat) :
    ((List.range n).map (chunkSlice B)).flatten = B.take (n * CHUNK_SIZE) := by
  induction n with
  | zero => simp
  | succ m ih =>
    rw [List.range_succ, List.map_append, List.flatten_append, ih]
    simp [chunkSlice, Nat.succ_mul, List.take_add]

theorem le_chunk_count_mul (len : Nat) : len ≤ chunk_count_of len * CHUNK_SIZE := by
  unfold chunk_count_of CHUNK_SIZE
  omega

theorem flatten_chunkSlices (B : Bytes) :
    ((List.range (chunk_count_of B.length)).map (chunkSlice B)).flatten = B := by
  rw [chunkSlice_flatten]
  exact List.take_of_length_le (le_chunk_count_mul B.length)

theorem processChunks_success (hash : Bytes → Nat) (fid : Nat) (B : Bytes)
    (nodesOf : Nat → List String) (succ : Nat → Bool) (i n : Nat)
    (h : ∀ j, j < n → succ (i + j) = true) :
    processChunks hash fid B nodesOf succ i n =
      { chunk_records := (List.range' i n).map (chunkRowOf hash fid B succ),
        replica_records := ((List.range' i n).map (fun j =>
          (nodesOf j).map (fun u => { chunk_id := j, storage_node_id := u : ReplicaRow }))).flatten,
        nodeStore := (List.range' i n).map (fun j => (j, chunkSlice B j)),
        allOk := true } := by
  induction n generalizing i with
  | zero => simp [processChunks]
  | succ m ih =>
    have hi : succ i = true := by simpa using h 0 (Nat.succ_pos m)
    have hrec := ih (i + 1) (fun j hj => by
      have := h (j + 1) (Nat.succ_lt_succ hj)
      simpa [show i + (j + 1) = i + 1 + j by omega] using this)
    rw [List.range'_succ]
    simp only [processChunks, hi, if_true, hrec, List.map_cons, List.flatten_cons]

theorem processChunks_allOk_iff (hash : Bytes → Nat) (fid : Nat) (B : Bytes)
    (nodesOf : Nat → List String) (succ : Nat → Bool) (i n : Nat) :
    (processChunks hash fid B nodesOf succ i n).allOk = true
      ↔ ∀ j, j < n → succ (i + j) = true := by
  induction n generalizing i with
  | zero => simp [processChunks]
  | succ m ih =>
    cases hi : succ i with
    | false =>
      simp only [processChunks, hi, Bool.false_eq_true, if_false]
      constructor
      · intro hfalse; cases hfalse
      · intro hall
        have := hall 0 (Nat.succ_pos m)
        simp [hi] at this
    | true =>
      simp only [processChunks, hi, if_true]
      rw [ih (i + 1)]
      constructor
      · intro hall j hj
        match j with
        | 0 => simpa using hi
        | j' + 1 =>
          have := hall j' (Nat.lt_of_succ_lt_succ hj)
          simpa [show i + 1 + j' = i + (j' + 1) by omega] using this
      · intro hall j hj
        have := hall (j + 1) (Nat.succ_lt_succ hj)
        simpa [show i + (j + 1) = i + 1 + j by omega] using this

theorem processChunks_first_failure (hash : Bytes → Nat) (fid : Nat) (B : Bytes)
    (nodesOf : Nat → List String) (succ : Nat → Bool) (i n k : Nat)
    (hk : k < n) (hpre : ∀ j, j < k → succ (i + j) = true) (hfail : succ (i + k) = false) :
    (processChunks hash fid B nodesOf succ i n).chunk_records =
      (List.range' i k).map (chunkRowOf hash fid B succ)
        ++ [chunkRowOf hash fid B succ (i + k)]
    ∧ (processChunks hash fid B nodesOf succ i n).allOk = false := by
  induction k generalizing i n with
  | zero =>
    obtain ⟨m, rfl⟩ := Nat.exists_eq_succ_of_ne_zero (Nat.pos_iff_ne_zero.mp hk)
    have hi : succ i = false := by simpa using hfail
    simp [processChunks, hi]
  | succ k' ih =>
    obtain ⟨m, rfl⟩ : ∃ m, n = m + 1 := ⟨n - 1, by omega⟩
    have hi : succ i = true := hpre 0 (Nat.succ_pos k')
    have hrec := ih (i + 1) m (by omega)
      (fun j hj => by
        have := hpre (j + 1) (Nat.succ_lt_succ hj)
        simpa [show i + (j + 1) = i + 1 + j by omega] using this)
      (by simpa [show i + (k' + 1) = i + 1 + k' by omega] using hfail)
    simp only [processChunks, hi, if_true]
    rw [List.range'_succ]
    simp only [List.map_cons, List.cons_append]
    refine ⟨?_, hrec.2⟩
    rw [hrec.1]
    simp [show i + 1 + k' = i + (k' + 1) by omega]

theorem upload_core_completed_iff (hash : Bytes → Nat) (fid owner : Nat)
    (fn mt : String) (B : Bytes) (nodesOf : Nat → List String) (succ : Nat → Bool)
    (cc : Nat) :
    (upload_core hash fid owner fn mt B nodesOf succ cc).file_record.status
        = FileStatus.completed
      ↔ ∀ i, i < cc → succ i = true := by
  have hiff := processChunks_allOk_iff hash fid B nodesOf succ 0 cc
  simp only [upload_core]
  cases hok : (processChunks hash fid B nodesOf succ 0 cc).allOk with
  | true =>
    simp only [if_true]
    rw [hok] at hiff
    simpa using hiff
  | false =>
    simp only [Bool.false_eq_true, if_false]
    rw [hok] at hiff
    constructor
    · intro hcontr; cases hcontr
    · intro hall
      have : False := by
        have := hiff.mpr (by simpa using hall)
        cases this
      cases this

theorem upload_core_first_failure (hash : Bytes → Nat) (fid owner : Nat)
    (fn mt : String) (B : Bytes) (nodesOf : Nat → List String) (succ : Nat → Bool)
    (cc k : Nat) (hk : k < cc) (hpre : ∀ j, j < k → succ j = true)
    (hfail : succ k = false) :
    (upload_core hash fid owner fn mt B nodesOf succ cc).file_record.status = FileStatus.failed
    ∧ (upload_core hash fid owner fn mt B nodesOf succ cc).chunk_records =
        (List.range' 0 k).map (chunkRowOf hash fid B succ)
          ++ [chunkRowOf hash fid B succ k] := by
  have hff := processChunks_first_failure hash fid B nodesOf succ 0 cc k hk
    (by simpa using hpre) (by simpa using hfail)
  have h1 := hff.1
  rw [Nat.zero_add] at h1
  constructor
  · simp only [upload_core, hff.2, Bool.false_eq_true, if_false]
  · simp only [upload_core]
    rw [h1]

/-- C5: during upload, the File commits as `completed` iff every chunk's
replication succeeded; and when the first replication failure happens at
index `k`, the loop stops there — the committed chunk rows are exactly the
stored rows for indices below `k` followed by the failed row at `k` (no
chunk with a higher index is created), and the File commits as `failed`. -/
theorem c5_upload_failure_semantics (hash : Bytes → Nat) (fid owner : Nat)
    (fn mt : String) (B : Bytes) (nodesOf : Nat → List String) (succ : Nat → Bool) :
    ((upload_file hash fid owner fn mt B nodesOf succ).file_record.status = FileStatus.completed
      ↔ ∀ i, i < chunk_count_of B.length → succ i = true)
    ∧ (∀ k, k < chunk_count_of B.length → (∀ j, j < k → succ j = true) → succ k = false →
        (upload_file hash fid owner fn mt B nodesOf succ).file_record.status = FileStatus.failed
        ∧ (upload_file hash fid owner fn mt B nodesOf succ).chunk_records =
            (List.range' 0 k).map (chunkRowOf hash fid B succ)
              ++ [chunkRowOf hash fid B succ k]
        ∧ (chunkRowOf hash fid B succ k).status = ChunkStatus.failed
        ∧ (upload_file hash fid owner fn mt B nodesOf succ).chunk_records.map
            (fun c => c.chunk_index) = List.range (k + 1)) := by
  simp only [upload_file]
  refine ⟨upload_core_completed_iff hash fid owner fn mt B nodesOf succ _, ?_⟩
  intro k hk hpre hfail
  have hff := upload_core_first_failure hash fid owner fn mt B nodesOf succ
    (chunk_count_of B.length) k hk hpre hfail
  refine ⟨hff.1, hff.2, ?_, ?_⟩
  · simp [chunkRowOf, hfail]
  · rw [hff.2]
    rw [List.map_append, List.map_map]
    have hidx : (fun c => c.chunk_index) ∘ chunkRowOf hash fid B succ = fun j => j := by
      funext j; rfl
    rw [hidx]
    simp [chunkRowOf, List.range_succ, List.range_eq_range']

/-- Witness for C5: a one-chunk upload whose replication fails at index 0
commits the chunk as `failed` and the file as `failed`, creating no further
chunk rows. -/
theorem c5_upload_failure_semantics_witness :
    0 < chunk_count_of ([1, 2, 3] : Bytes).length
    ∧ ((upload_file demoHash 1 10 ("f.bin") ("application/octet-stream") [1, 2, 3]
          (fun _ => STORAGE_NODES) (fun _ => false)).file_record.status = FileStatus.failed
      ∧ (upload_file demoHash 1 10 ("f.bin") ("application/octet-stream") [1, 2, 3]
          (fun _ => STORAGE_NODES) (fun _ => false)).chunk_records =
          (List.range' 0 0).map (chunkRowOf demoHash 1 [1, 2, 3] (fun _ => false))
            ++ [chunkRowOf demoHash 1 [1, 2, 3] (fun _ => false) 0]
      ∧ (chunkRowOf demoHash 1 [1, 2, 3] (fun _ => false) 0).status = ChunkStatus.failed
      ∧ (upload_file demoHash 1 10 ("f.bin") ("application/octet-stream") [1, 2, 3]
          (fun _ => STORAGE_NODES) (fun _ => false)).chunk_records.map
          (fun c => c.chunk_index) = List.range (0 + 1)) :=
  ⟨by decide,
    (c5_upload_failure_semantics demoHash 1 10 ("f.bin") ("application/octet-stream")
      [1, 2, 3] (fun _ => STORAGE_NODES) (fun _ => false)).2 0 (by decide)
      (fun j hj => absurd hj (Nat.not_lt_zero j)) rfl⟩

theorem upload_core_success (hash : Bytes → Nat) (fid owner : Nat) (fn mt : String)
    (B : Bytes) (nodesOf : Nat → List String) (cc : Nat) :
    upload_core hash fid owner fn mt B nodesOf (fun _ => true) cc =
      { file_record :=
          { id := fid, filename := fn, owner_id := owner, size := B.length,
            mime_type := mt, status := FileStatus.completed,
            checksum := hash B, chunk_count := cc },
        chunk_records := (List.range' 0 cc).map (chunkRowOf hash fid B (fun _ => true)),
        replica_records := ((List.range' 0 cc).map (fun j =>
          (nodesOf j).map (fun u => { chunk_id := j, storage_node_id := u : ReplicaRow }))).flatten,
        nodeStore := (List.range' 0 cc).map (fun j => (j, chunkSlice B j)) } := by
  simp only [upload_core]
  rw [processChunks_success hash fid B nodesOf (fun _ => true) 0 cc (fun j hj => rfl)]
  rfl

theorem sortByIndex_sorted_id (l : List ChunkRow)
    (h : l.Chain' (fun a b => a.chunk_index ≤ b.chunk_index)) : sortByIndex l = l := by
  induction l with
  | nil => rfl
  | cons c cs ih =>
    rw [sortByIndex, ih h.tail]
    cases cs with
    | nil => rfl
    | cons d ds =>
      have hcd : c.chunk_index ≤ d.chunk_index := (List.chain'_cons.mp h).1
      simp [insertByIndex, hcd]

theorem chain_map_range' (f : Nat → ChunkRow) (hf : ∀ j, (f j).chunk_index = j)
    (s n : Nat) :
    ((List.range' s n).map f).Chain' (fun a b => a.chunk_index ≤ b.chunk_index) := by
  induction n generalizing s with
  | zero => simp
  | succ m ih =>
    rw [List.range'_succ, List.map_cons]
    apply List.chain'_cons'.mpr
    refine ⟨?_, ih (s + 1)⟩
    intro y hy
    cases m with
    | zero => simp at hy
    | succ m' =>
      rw [List.range'_succ, List.map_cons] at hy
      simp only [List.head?_cons, Option.mem_def, Option.some_inj] at hy
      subst hy
      rw [hf s, hf (s + 1)]
      omega

theorem lookup_map_pair (g : Nat → Bytes) (idxs : List Nat) (j : Nat) (hj : j ∈ idxs) :
    (idxs.map (fun k => (k, g k))).lookup j = some (g j) := by
  induction idxs with
  | nil => cases hj
  | cons k ks ih =>
    rw [List.map_cons]
    simp only [List.lookup]
    by_cases hkj : j = k
    · subst hkj
      simp
    · have hfalse : (j == k) = false := by
        simpa using hkj
      rw [hfalse]
      have hj' : j ∈ ks := by
        rcases List.mem_cons.mp hj with rfl | hmem
        · exact absurd rfl hkj
        · exact hmem
      exact ih hj'

theorem firstHit_const_some (d : Bytes) (resp : String → Option Bytes)
    (nodes : List String) (hne : nodes ≠ []) (hresp : ∀ u ∈ nodes, resp u = some d) :
    firstHit resp nodes = some d := by
  cases nodes with
  | nil => exact absurd rfl hne
  | cons u rest =>
    have hu : resp u = some d := hresp u (List.mem_cons_self u rest)
    simp [firstHit, hu]

theorem replicaNodes_blocks (nodesOf : Nat → List String) (idxs : List Nat)
    (j : Nat) (hj : j ∈ idxs) (hnd : idxs.Nodup) :
    ((((idxs.map (fun k => (nodesOf k).map
        (fun u => { chunk_id := k, storage_node_id := u : ReplicaRow }))).flatten).filter
        (fun r => r.chunk_id == j)).map (fun r => r.storage_node_id)) = nodesOf j := by
  induction idxs with
  | nil => cases hj
  | cons k ks ih =>
    rw [List.map_cons, List.flatten_cons, List.filter_append, List.map_append]
    rcases List.mem_cons.mp hj with rfl | hmem
    · have hknots : j ∉ ks := (List.nodup_cons.mp hnd).1
      have h1 : ((nodesOf j).map
            (fun u => { chunk_id := j, storage_node_id := u : ReplicaRow })).filter
            (fun r => r.chunk_id == j)
          = (nodesOf j).map (fun u => { chunk_id := j, storage_node_id := u : ReplicaRow }) := by
        apply List.filter_eq_self.mpr
        intro r hr
        obtain ⟨u, _, rfl⟩ := List.mem_map.mp hr
        exact beq_self_eq_true j
      have h2 : ((ks.map (fun k => (nodesOf k).map
            (fun u => { chunk_id := k, storage_node_id := u : ReplicaRow }))).flatten).filter
            (fun r => r.chunk_id == j) = [] := by
        apply List.filter_eq_nil_iff.mpr
        intro r hr
        obtain ⟨block, hblock, hrb⟩ := List.mem_flatten.mp hr
        obtain ⟨k', hk', rfl⟩ := List.mem_map.mp hblock
        obtain ⟨u, _, rfl⟩ := List.mem_map.mp hrb
        simp only [beq_iff_eq]
        intro hcontr
        exact hknots (hcontr ▸ hk')
      rw [h1, h2]
      simp only [List.map_map, List.map_nil, List.append_nil]
      have hcomp : ((fun r => r.storage_node_id) ∘
          fun u => ({ chunk_id := j, storage_node_id := u } : ReplicaRow)) = fun u => u := by
        funext u; rfl
      rw [hcomp, List.map_id']
    · have hkj : k ≠ j := by
        intro hcontr
        subst hcontr
        exact (List.nodup_cons.mp hnd).1 hmem
      have h1 : ((nodesOf k).map
            (fun u => { chunk_id := k, storage_node_id := u : ReplicaRow })).filter
            (fun r => r.chunk_id == j) = [] := by
        apply List.filter_eq_nil_iff.mpr
        intro r hr
        obtain ⟨u, _, rfl⟩ := List.mem_map.mp hr
        simpa using hkj
      rw [h1]
      simpa using ih hmem (List.nodup_cons.mp hnd).2

theorem mapM_ok_of_pointwise (f : ChunkRow → Except DlErr Bytes) (g : ChunkRow → Bytes)
    (l : List ChunkRow) (h : ∀ a ∈ l, f a = Except.ok (g a)) :
    l.mapM f = Except.ok (l.map g) := by
  induction l with
  | nil => rfl
  | cons a as ih =>
    rw [List.mapM_cons, h a (List.mem_cons_self a as),
      ih (fun x hx => h x (List.mem_cons_of_mem a hx))]
    rfl

theorem fetchFileBytes_explicit (hash : Bytes → Nat) (fid : Nat) (B : Bytes)
    (nodesOf : Nat → List String) (n : Nat) (f : FileRow)
    (hnodes : ∀ i, nodesOf i ≠ []) :
    fetchFileBytes fid (fun _ => none)
      (fun _ cid => ((List.range' 0 n).map (fun j => (j, chunkSlice B j))).lookup cid)
      { files := [f],
        chunks := (List.range' 0 n).map (chunkRowOf hash fid B (fun _ => true)),
        replicas := ((List.range' 0 n).map (fun j =>
          (nodesOf j).map (fun u => { chunk_id := j, storage_node_id := u : ReplicaRow }))).flatten,
        shares := [] }
      = Except.ok (((List.range' 0 n).map (chunkSlice B)).flatten) := by
  have hfil : (((List.range' 0 n).map (chunkRowOf hash fid B (fun _ => true))).filter
      (fun c => c.file_id == fid))
        = (List.range' 0 n).map (chunkRowOf hash fid B (fun _ => true)) := by
    apply List.filter_eq_self.mpr
    intro c hc
    obtain ⟨j, _, rfl⟩ := List.mem_map.mp hc
    exact beq_self_eq_true fid
  have hsort := sortByIndex_sorted_id
    ((List.range' 0 n).map (chunkRowOf hash fid B (fun _ => true)))
    (chain_map_range' (chunkRowOf hash fid B (fun _ => true)) (fun j => rfl) 0 n)
  have hmapM : ((List.range' 0 n).map (chunkRowOf hash fid B (fun _ => true))).mapM
      (fun c =>
        match retrieve_chunk_from_nodes none
            (replicaNodes
              { files := [f],
                chunks := (List.range' 0 n).map (chunkRowOf hash fid B (fun _ => true)),
                replicas := ((List.range' 0 n).map (fun j =>
                  (nodesOf j).map
                    (fun u => { chunk_id := j, storage_node_id := u : ReplicaRow }))).flatten,
                shares := [] } c.id)
            (fun u => ((List.range' 0 n).map (fun j => (j, chunkSlice B j))).lookup c.id) with
        | some d => pure d
        | none => Except.error DlErr.chunkUnavailable)
      = Except.ok (((List.range' 0 n).map (chunkRowOf hash fid B (fun _ => true))).map
          (fun c => chunkSlice B c.chunk_index)) := by
    apply mapM_ok_of_pointwise
    intro c hc
    obtain ⟨j, hj, rfl⟩ := List.mem_map.mp hc
    have hrn : replicaNodes
        { files := [f],
          chunks := (List.range' 0 n).map (chunkRowOf hash fid B (fun _ => true)),
          replicas := ((List.range' 0 n).map (fun j =>
            (nodesOf j).map
              (fun u => { chunk_id := j, storage_node_id := u : ReplicaRow }))).flatten,
          shares := [] } (chunkRowOf hash fid B (fun _ => true) j).id = nodesOf j := by
      show ((((List.range' 0 n).map (fun k => (nodesOf k).map
          (fun u => { chunk_id := k, storage_node_id := u : ReplicaRow }))).flatten).filter
          (fun r => r.chunk_id == j)).map (fun r => r.storage_node_id) = nodesOf j
      exact replicaNodes_blocks nodesOf (List.range' 0 n) j hj (List.nodup_range' 0 n)
    have hlook : ((List.range' 0 n).map (fun k => (k, chunkSlice B k))).lookup
        (chunkRowOf hash fid B (fun _ => true) j).id = some (chunkSlice B j) := by
      exact lookup_map_pair (chunkSlice B) (List.range' 0 n) j hj
    have hret : retrieve_chunk_from_nodes none (nodesOf j)
        (fun u => ((List.range' 0 n).map (fun k => (k, chunkSlice B k))).lookup
          (chunkRowOf hash fid B (fun _ => true) j).id) = some (chunkSlice B j) := by
      unfold retrieve_chunk_from_nodes
      simp only [bytesTruthy, Bool.false_eq_true, if_false]
      exact firstHit_const_some (chunkSlice B j) _ (nodesOf j) (hnodes j)
        (fun u _ => hlook)
    rw [hrn]
    rw [hret]
    rfl
  unfold fetchFileBytes
  simp only [hfil, hsort]
  rw [hmapM]
  rw [List.map_map]
  have hcomp : ((fun c => chunkSlice B c.chunk_index) ∘
      chunkRowOf hash fid B (fun _ => true)) = chunkSlice B := by
    funext j; rfl
  rw [hcomp]
  rfl

theorem download_explicit (hash : Bytes → Nat) (fid owner : Nat) (B : Bytes)
    (nodesOf : Nat → List String) (n : Nat) (f : FileRow)
    (hf : f.id = fid) (howner : f.owner_id = owner)
    (hnodes : ∀ i, nodesOf i ≠ []) :
    download_file fid owner none (fun _ => none)
      (fun _ cid => ((List.range' 0 n).map (fun j => (j, chunkSlice B j))).lookup cid)
      { files := [f],
        chunks := (List.range' 0 n).map (chunkRowOf hash fid B (fun _ => true)),
        replicas := ((List.range' 0 n).map (fun j =>
          (nodesOf j).map (fun u => { chunk_id := j, storage_node_id := u : ReplicaRow }))).flatten,
        shares := [] }
      = Except.ok (((List.range' 0 n).map (chunkSlice B)).flatten) := by
  have hfind : ([f].find? (fun x => x.id == fid && x.owner_id == owner)) = some f := by
    simp [List.find?, hf, howner]
  unfold download_file
  simp only [hfind]
  exact fetchFileBytes_explicit hash fid B nodesOf n f hnodes

theorem flatten_chunkSlices_range' (B : Bytes) :
    ((List.range' 0 (chunk_count_of B.length)).map (chunkSlice B)).flatten = B := by
  rw [← List.range_eq_range']
  exact flatten_chunkSlices B

/-- C3 (round trip): storing a byte string `B` of length at most
`10 × CHUNK_SIZE` with every replication succeeding produces
`⌈|B|/CHUNK_SIZE⌉` chunk records indexed `0 … count−1`; the per-chunk
payloads placed on the storage nodes, concatenated in ascending
`chunk_index` order, equal `B`; the recorded whole-file digest is the hash
of `B`; and downloading the stored file (replicas serving the stored
payloads, caches cold) yields exactly `B`. -/
theorem c3_round_trip (hash : Bytes → Nat) (B : Bytes) (fid owner : Nat) (fn mt : String)
    (nodesOf : Nat → List String)
    (hlen : B.length ≤ 10 * CHUNK_SIZE)
    (hnodes : ∀ i, nodesOf i ≠ []) :
    (upload_file hash fid owner fn mt B nodesOf (fun _ => true)).chunk_records.length
        = chunk_count_of B.length
    ∧ (upload_file hash fid owner fn mt B nodesOf (fun _ => true)).chunk_records.map
        (fun c => c.chunk_index) = List.range (chunk_count_of B.length)
    ∧ ((upload_file hash fid owner fn mt B nodesOf (fun _ => true)).nodeStore.map
        (fun p => p.2)).flatten = B
    ∧ (upload_file hash fid owner fn mt B nodesOf (fun _ => true)).file_record.checksum
        = hash B
    ∧ download_file fid owner none (fun _ => none)
        (fun _ cid =>
          (upload_file hash fid owner fn mt B nodesOf (fun _ => true)).nodeStore.lookup cid)
        { files := [(upload_file hash fid owner fn mt B nodesOf (fun _ => true)).file_record],
          chunks := (upload_file hash fid owner fn mt B nodesOf (fun _ => true)).chunk_records,
          replicas := (upload_file hash fid owner fn mt B nodesOf (fun _ => true)).replica_records,
          shares := [] } = Except.ok B := by
  have hu : upload_file hash fid owner fn mt B nodesOf (fun _ => true) =
      { file_record :=
          { id := fid, filename := fn, owner_id := owner, size := B.length,
            mime_type := mt, status := FileStatus.completed,
            checksum := hash B, chunk_count := chunk_count_of B.length },
        chunk_records := (List.range' 0 (chunk_count_of B.length)).map
          (chunkRowOf hash fid B (fun _ => true)),
        replica_records := ((List.range' 0 (chunk_count_of B.length)).map (fun j =>
          (nodesOf j).map (fun u => { chunk_id := j, storage_node_id := u : ReplicaRow }))).flatten,
        nodeStore := (List.range' 0 (chunk_count_of B.length)).map
          (fun j => (j, chunkSlice B j)) } := by
    simp only [upload_file]
    exact upload_core_success hash fid owner fn mt B nodesOf (chunk_count_of B.length)
  rw [hu]
  refine ⟨?_, ?_, ?_, rfl, ?_⟩
  · simp
  · rw [List.map_map]
    have hidx : ((fun c => c.chunk_index) ∘ chunkRowOf hash fid B (fun _ => true))
        = fun j => j := by
      funext j; rfl
    rw [hidx, List.range_eq_range']
    exact List.map_id' _
  · rw [List.map_map]
    have hsnd : ((fun p => p.2) ∘ fun j => ((j, chunkSlice B j) : Nat × Bytes))
        = chunkSlice B := by
      funext j; rfl
    rw [hsnd]
    exact flatten_chunkSlices_range' B
  · have hdl := download_explicit hash fid owner B nodesOf (chunk_count_of B.length)
      { id := fid, filename := fn, owner_id := owner, size := B.length,
        mime_type := mt, status := FileStatus.completed,
        checksum := hash B, chunk_count := chunk_count_of B.length } rfl rfl hnodes
    rw [flatten_chunkSlices_range' B] at hdl
    exact hdl

/-- Witness for C3: a concrete three-byte payload (one chunk) round-trips
through upload and download. -/
theorem c3_round_trip_witness :
    ([1, 2, 3] : Bytes).length ≤ 10 * CHUNK_SIZE
    ∧ (∀ i : Nat, (fun _ => STORAGE_NODES) i ≠ ([] : List String))
    ∧ ((upload_file demoHash 1 10 ("f.bin") ("application/octet-stream") [1, 2, 3]
          (fun _ => STORAGE_NODES) (fun _ => true)).chunk_records.length
        = chunk_count_of ([1, 2, 3] : Bytes).length
      ∧ (upload_file demoHash 1 10 ("f.bin") ("application/octet-stream") [1, 2, 3]
          (fun _ => STORAGE_NODES) (fun _ => true)).chunk_records.map
          (fun c => c.chunk_index) = List.range (chunk_count_of ([1, 2, 3] : Bytes).length)
      ∧ ((upload_file demoHash 1 10 ("f.bin") ("application/octet-stream") [1, 2, 3]
          (fun _ => STORAGE_NODES) (fun _ => true)).nodeStore.map
          (fun p => p.2)).flatten = [1, 2, 3]
      ∧ (upload_file demoHash 1 10 ("f.bin") ("application/octet-stream") [1, 2, 3]
          (fun _ => STORAGE_NODES) (fun _ => true)).file_record.checksum
          = demoHash [1, 2, 3]
      ∧ download_file 1 10 none (fun _ => none)
          (fun _ cid =>
            (upload_file demoHash 1 10 ("f.bin") ("application/octet-stream") [1, 2, 3]
              (fun _ => STORAGE_NODES) (fun _ => true)).nodeStore.lookup cid)
          { files := [(upload_file demoHash 1 10 ("f.bin") ("application/octet-stream")
              [1, 2, 3] (fun _ => STORAGE_NODES) (fun _ => true)).file_record],
            chunks := (upload_file demoHash 1 10 ("f.bin") ("application/octet-stream")
              [1, 2, 3] (fun _ => STORAGE_NODES) (fun _ => true)).chunk_records,
            replicas := (upload_file demoHash 1 10 ("f.bin") ("application/octet-stream")
              [1, 2, 3] (fun _ => STORAGE_NODES) (fun _ => true)).replica_records,
            shares := [] } = Except.ok [1, 2, 3]) :=
  ⟨by decide, fun i => by show STORAGE_NODES ≠ []; decide,
    c3_round_trip demoHash [1, 2, 3] 1 10 ("f.bin") ("application/octet-stream")
      (fun _ => STORAGE_NODES) (by decide) (fun i => by show STORAGE_NODES ≠ []; decide)⟩

/-- One concrete draw for `random.sample`: take the first `k` elements. -/
def takeSample (l : List String) (k : Nat) : List String := l.take k

/-- C9: the claim says the placement set is sampled from the currently
healthy nodes, and that a chunk is failed immediately without attempting
replication when fewer than `Q` nodes are healthy.  Counterexample with zero
healthy nodes: the spec-modelled placement fails the chunk (`none`), but
`assign_storage_nodes` samples the full configured `STORAGE_NODES` list —
returning three nodes, none of which is healthy — and the upload loop still
submits the replication task, whose reported success stores the chunk. -/
theorem c9_counterexample :
    specPlacement takeSample [] = none
    ∧ assign_storage_nodes takeSample = STORAGE_NODES
    ∧ ¬ (∀ u ∈ assign_storage_nodes takeSample, u ∈ ([] : List String))
    ∧ (upload_file demoHash 1 10 ("f.bin") ("application/octet-stream") [7]
        (fun _ => assign_storage_nodes takeSample) (fun _ => true)).chunk_records.map
        (fun c => c.status) = [ChunkStatus.stored] := by
  refine ⟨by decide, by decide, by decide, by decide⟩

theorem processChunks_head (hash : Bytes → Nat) (fid : Nat) (B : Bytes)
    (nodesOf : Nat → List String) (succ : Nat → Bool) (i n : Nat) (hn : 0 < n) :
    (processChunks hash fid B nodesOf succ i n).chunk_records.head?
      = some (chunkRowOf hash fid B succ i) := by
  obtain ⟨m, rfl⟩ : ∃ m, n = m + 1 := ⟨n - 1, by omega⟩
  cases hi : succ i <;> simp [processChunks, hi]

theorem upload_core_head (hash : Bytes → Nat) (fid owner : Nat) (fn mt : String)
    (B : Bytes) (nodesOf : Nat → List String) (succ : Nat → Bool) (cc : Nat)
    (hcc : 0 < cc) :
    (upload_core hash fid owner fn mt B nodesOf succ cc).chunk_records.head?
      = some (chunkRowOf hash fid B succ 0) := by
  simp only [upload_core]
  exact processChunks_head hash fid B nodesOf succ 0 cc hcc

/-- C9 (amended): the placement set is a `random.sample` draw of
`min(R,|STORAGE_NODES|)` nodes from the full configured `STORAGE_NODES`
list — node health is never consulted — and replication is attempted
unconditionally: the first chunk's committed status is decided solely by
the awaited replication-task outcome, never pre-emptively by a
healthy-node count. -/
theorem c9_placement_ignores_health (sample : List String → Nat → List String)
    (hsample : ∀ (l : List String) (k : Nat), k ≤ l.length →
      (sample l k).length = k ∧ ∀ x ∈ sample l k, x ∈ l) :
    ((assign_storage_nodes sample).length = min REPLICATION_FACTOR STORAGE_NODES.length
      ∧ ∀ x ∈ assign_storage_nodes sample, x ∈ STORAGE_NODES)
    ∧ (∀ (hash : Bytes → Nat) (fid owner : Nat) (fn mt : String) (B : Bytes)
        (nodesOf : Nat → List String) (succ : Nat → Bool), B ≠ [] →
        ((upload_file hash fid owner fn mt B nodesOf succ).chunk_records.head?).map
          (fun c => c.status)
          = some (if succ 0 then ChunkStatus.stored else ChunkStatus.failed)) := by
  constructor
  · have h := hsample STORAGE_NODES (min REPLICATION_FACTOR STORAGE_NODES.length)
      (Nat.min_le_right _ _)
    exact ⟨h.1, h.2⟩
  · intro hash fid owner fn mt B nodesOf succ hne
    have hlen : 0 < B.length := List.length_pos.mpr hne
    have hcc : 0 < chunk_count_of B.length := by
      unfold chunk_count_of CHUNK_SIZE
      omega
    simp only [upload_file]
    rw [upload_core_head hash fid owner fn mt B nodesOf succ _ hcc]
    simp [chunkRowOf]

/-- Witness for C9 (amended): the take-based draw satisfies the
`random.sample` contract, and the conclusions hold for it. -/
theorem c9_placement_ignores_health_witness :
    (∀ (l : List String) (k : Nat), k ≤ l.length →
      (takeSample l k).length = k ∧ ∀ x ∈ takeSample l k, x ∈ l)
    ∧ (((assign_storage_nodes takeSample).length
          = min REPLICATION_FACTOR STORAGE_NODES.length
        ∧ ∀ x ∈ assign_storage_nodes takeSample, x ∈ STORAGE_NODES)
      ∧ (∀ (hash : Bytes → Nat) (fid owner : Nat) (fn mt : String) (B : Bytes)
          (nodesOf : Nat → List String) (succ : Nat → Bool), B ≠ [] →
          ((upload_file hash fid owner fn mt B nodesOf succ).chunk_records.head?).map
            (fun c => c.status)
            = some (if succ 0 then ChunkStatus.stored else ChunkStatus.failed))) :=
  have hs : ∀ (l : List String) (k : Nat), k ≤ l.length →
      (takeSample l k).length = k ∧ ∀ x ∈ takeSample l k, x ∈ l := by
    intro l k hk
    refine ⟨?_, fun x hx => List.mem_of_mem_take hx⟩
    unfold takeSample
    rw [List.length_take]
    omega
  ⟨hs, c9_placement_ignores_health takeSample hs⟩

theorem verify_eq (hash : Bytes → Nat) (resp : String → Nat → Option Bytes)
    (db : MetaDB) (file_id : Nat) (f : FileRow)
    (hf : db.files.find? (fun x => x.id == file_id) = some f) :
    verify_file_integrity hash resp db file_id =
      ({ db with files := db.files.map (fun x =>
          if x.id == file_id then
            { x with status := if ((db.chunks.filter (fun c => c.file_id == file_id)).filterMap
                (verifyChunkEntry hash resp db)).isEmpty then FileStatus.verified
              else FileStatus.corrupted }
          else x) },
       { file_id := file_id,
         status := if ((db.chunks.filter (fun c => c.file_id == file_id)).filterMap
             (verifyChunkEntry hash resp db)).isEmpty then VerifyStatus.verified
           else VerifyStatus.corrupted,
         corrupted_chunks := (db.chunks.filter (fun c => c.file_id == file_id)).filterMap
           (verifyChunkEntry hash resp db) }) := by
  unfold verify_file_integrity
  rw [hf]

theorem find?_status_update (files : List FileRow) (fid : Nat) (st : FileStatus)
    (f : FileRow) (hf : files.find? (fun x => x.id == fid) = some f) :
    (files.map (fun x => if x.id == fid then { x with status := st } else x)).find?
      (fun x => x.id == fid) = some { f with status := st } := by
  induction files with
  | nil => cases hf
  | cons g gs ih =>
    cases hg : (g.id == fid) with
    | true =>
      simp only [List.find?_cons, hg] at hf
      injection hf with hf'
      subst hf'
      have hg2 : ((({ g with status := st } : FileRow)).id == fid) = true := hg
      rw [List.map_cons, if_pos hg]
      simp only [List.find?_cons, hg2]
    | false =>
      simp only [List.find?_cons, hg] at hf
      rw [List.map_cons, if_neg (by simp [hg])]
      simp only [List.find?_cons, hg]
      exact ih hf

theorem verifyChunkEntry_of_fetch (hash : Bytes → Nat) (resp : String → Nat → Option Bytes)
    (db : MetaDB) (c : ChunkRow) (d : Bytes)
    (hd : fetchChunkData resp (replicaNodes db c.id) c.id = some d) (hne : d ≠ []) :
    verifyChunkEntry hash resp db c
      = if hash d = c.checksum then none
        else some (CorruptedEntry.mismatch c.id c.checksum (hash d)) := by
  unfold verifyChunkEntry
  rw [hd]
  cases d with
  | nil => exact absurd rfl hne
  | cons a as =>
    by_cases hmatch : hash (a :: as) = c.checksum
    · simp [hmatch]
    · simp [hmatch]

/-- C7: when every chunk of the file yields a payload from some replica,
VerifyFile returns `verified` — and commits the File status `verified` —
iff every fetched payload's recomputed digest equals that chunk's stored
digest; any chunk whose fetched payload mismatches makes the result (and
the committed File status) `corrupted`, and that chunk appears in the
returned corrupted-chunks list with the stored digest reported as
`expected_checksum`. -/
theorem c7_verify_soundness (hash : Bytes → Nat) (resp : String → Nat → Option Bytes)
    (db : MetaDB) (file_id : Nat) (f : FileRow)
    (hf : db.files.find? (fun x => x.id == file_id) = some f)
    (hfetch : ∀ c ∈ db.chunks.filter (fun c => c.file_id == file_id),
      ∃ d, fetchChunkData resp (replicaNodes db c.id) c.id = some d ∧ d ≠ []) :
    ((verify_file_integrity hash resp db file_id).2.status = VerifyStatus.verified
      ↔ ∀ c ∈ db.chunks.filter (fun c => c.file_id == file_id), ∀ d,
          fetchChunkData resp (replicaNodes db c.id) c.id = some d → hash d = c.checksum)
    ∧ ((∀ c ∈ db.chunks.filter (fun c => c.file_id == file_id), ∀ d,
          fetchChunkData resp (replicaNodes db c.id) c.id = some d → hash d = c.checksum) →
        (((verify_file_integrity hash resp db file_id).1.files.find?
            (fun x => x.id == file_id)).map (fun x => x.status)) = some FileStatus.verified)
    ∧ (∀ c ∈ db.chunks.filter (fun c => c.file_id == file_id), ∀ d,
        fetchChunkData resp (replicaNodes db c.id) c.id = some d → hash d ≠ c.checksum →
          (verify_file_integrity hash resp db file_id).2.status = VerifyStatus.corrupted
          ∧ CorruptedEntry.mismatch c.id c.checksum (hash d)
              ∈ (verify_file_integrity hash resp db file_id).2.corrupted_chunks
          ∧ (((verify_file_integrity hash resp db file_id).1.files.find?
              (fun x => x.id == file_id)).map (fun x => x.status))
            = some FileStatus.corrupted) := by
  have hnil : ((db.chunks.filter (fun c => c.file_id == file_id)).filterMap
      (verifyChunkEntry hash resp db)) = []
      ↔ ∀ c ∈ db.chunks.filter (fun c => c.file_id == file_id), ∀ d,
          fetchChunkData resp (replicaNodes db c.id) c.id = some d → hash d = c.checksum := by
    rw [List.filterMap_eq_nil_iff]
    constructor
    · intro hall c hc d hd
      obtain ⟨d', hd', hne'⟩ := hfetch c hc
      have hd'' : d = d' := by rw [hd] at hd'; injection hd'
      subst hd''
      have := hall c hc
      rw [verifyChunkEntry_of_fetch hash resp db c d hd hne'] at this
      by_cases hmatch : hash d = c.checksum
      · exact hmatch
      · rw [if_neg hmatch] at this; cases this
    · intro hall c hc
      obtain ⟨d, hd, hne⟩ := hfetch c hc
      rw [verifyChunkEntry_of_fetch hash resp db c d hd hne]
      rw [if_pos (hall c hc d hd)]
  rw [verify_eq hash resp db file_id f hf]
  refine ⟨?_, ?_, ?_⟩
  · simp only [List.isEmpty_iff]
    by_cases hemp : ((db.chunks.filter (fun c => c.file_id == file_id)).filterMap
        (verifyChunkEntry hash resp db)) = []
    · simp only [if_pos hemp]
      simpa using hnil.mp hemp
    · simp only [if_neg hemp]
      constructor
      · intro hcontr; cases hcontr
      · intro hall; exact absurd (hnil.mpr hall) hemp
  · intro hall
    have hemp := hnil.mpr hall
    simp only [List.isEmpty_iff, if_pos hemp]
    rw [find?_status_update db.files file_id FileStatus.verified f hf]
    rfl
  · intro c hc d hd hmm
    obtain ⟨d', hd', hne'⟩ := hfetch c hc
    have hd'' : d = d' := by rw [hd] at hd'; injection hd'
    subst hd''
    have hentry : verifyChunkEntry hash resp db c
        = some (CorruptedEntry.mismatch c.id c.checksum (hash d)) := by
      rw [verifyChunkEntry_of_fetch hash resp db c d hd hne', if_neg hmm]
    have hmem : CorruptedEntry.mismatch c.id c.checksum (hash d)
        ∈ ((db.chunks.filter (fun c => c.file_id == file_id)).filterMap
          (verifyChunkEntry hash resp db)) :=
      List.mem_filterMap.mpr ⟨c, hc, hentry⟩
    have hne2 : ((db.chunks.filter (fun c => c.file_id == file_id)).filterMap
        (verifyChunkEntry hash resp db)) ≠ [] := by
      intro hcontr
      rw [hcontr] at hmem
      cases hmem
    refine ⟨?_, ?_, ?_⟩
    · simp only [List.isEmpty_iff, if_neg hne2]
    · exact hmem
    · simp only [List.isEmpty_iff, if_neg hne2]
      rw [find?_status_update db.files file_id FileStatus.corrupted f hf]
      rfl

/-- Witness for C7: one file with a single chunk whose only replica returns
the intact payload `[1]`: the task reports `verified` and commits the File
status `verified`; the mismatch branch holds vacuously. -/
theorem c7_verify_soundness_witness :
    (c1_db.files.find? (fun x => x.id == 1) = some c1_file)
    ∧ (∀ c ∈ c1_db.chunks.filter (fun c => c.file_id == 1),
        ∃ d, fetchChunkData (fun _ _ => some [1]) (replicaNodes c1_db c.id) c.id = some d
          ∧ d ≠ [])
    ∧ (((verify_file_integrity demoHash (fun _ _ => some [1]) c1_db 1).2.status
          = VerifyStatus.verified
        ↔ ∀ c ∈ c1_db.chunks.filter (fun c => c.file_id == 1), ∀ d,
            fetchChunkData (fun _ _ => some [1]) (replicaNodes c1_db c.id) c.id = some d →
            demoHash d = c.checksum)
      ∧ ((∀ c ∈ c1_db.chunks.filter (fun c => c.file_id == 1), ∀ d,
            fetchChunkData (fun _ _ => some [1]) (replicaNodes c1_db c.id) c.id = some d →
            demoHash d = c.checksum) →
          (((verify_file_integrity demoHash (fun _ _ => some [1]) c1_db 1).1.files.find?
              (fun x => x.id == 1)).map (fun x => x.status)) = some FileStatus.verified)
      ∧ (∀ c ∈ c1_db.chunks.filter (fun c => c.file_id == 1), ∀ d,
          fetchChunkData (fun _ _ => some [1]) (replicaNodes c1_db c.id) c.id = some d →
          demoHash d ≠ c.checksum →
            (verify_file_integrity demoHash (fun _ _ => some [1]) c1_db 1).2.status
              = VerifyStatus.corrupted
            ∧ CorruptedEntry.mismatch c.id c.checksum (demoHash d)
                ∈ (verify_file_integrity demoHash (fun _ _ => some [1]) c1_db 1).2.corrupted_chunks
            ∧ (((verify_file_integrity demoHash (fun _ _ => some [1]) c1_db 1).1.files.find?
                (fun x => x.id == 1)).map (fun x => x.status))
              = some FileStatus.corrupted)) :=
  ⟨by decide, by decide,
    c7_verify_soundness demoHash (fun _ _ => some [1]) c1_db 1 c1_file (by decide) (by decide)⟩

/-- C10: a chunk none of whose replicas returns a payload is folded into the
same corrupted outcome as a digest mismatch — the task reports `corrupted`,
commits the File status `corrupted`, and lists the chunk with the
`chunk_not_found` error. -/
theorem c10_unreachable_chunk_corrupted (hash : Bytes → Nat)
    (resp : String → Nat → Option Bytes) (db : MetaDB) (file_id : Nat)
    (f : FileRow) (c : ChunkRow)
    (hf : db.files.find? (fun x => x.id == file_id) = some f)
    (hc : c ∈ db.chunks.filter (fun c => c.file_id == file_id))
    (hmiss : fetchChunkData resp (replicaNodes db c.id) c.id = none) :
    (verify_file_integrity hash resp db file_id).2.status = VerifyStatus.corrupted
    ∧ CorruptedEntry.chunk_not_found c.id
        ∈ (verify_file_integrity hash resp db file_id).2.corrupted_chunks
    ∧ (((verify_file_integrity hash resp db file_id).1.files.find?
        (fun x => x.id == file_id)).map (fun x => x.status)) = some FileStatus.corrupted := by
  have hentry : verifyChunkEntry hash resp db c
      = some (CorruptedEntry.chunk_not_found c.id) := by
    unfold verifyChunkEntry
    rw [hmiss]
  have hmem : CorruptedEntry.chunk_not_found c.id
      ∈ ((db.chunks.filter (fun c => c.file_id == file_id)).filterMap
        (verifyChunkEntry hash resp db)) :=
    List.mem_filterMap.mpr ⟨c, hc, hentry⟩
  have hne2 : ((db.chunks.filter (fun c => c.file_id == file_id)).filterMap
      (verifyChunkEntry hash resp db)) ≠ [] := by
    intro hcontr
    rw [hcontr] at hmem
    cases hmem
  rw [verify_eq hash resp db file_id f hf]
  refine ⟨?_, hmem, ?_⟩
  · simp only [List.isEmpty_iff, if_neg hne2]
  · simp only [List.isEmpty_iff, if_neg hne2]
    rw [find?_status_update db.files file_id FileStatus.corrupted f hf]
    rfl

/-- The single chunk row of `c1_db`. -/
def c10_chunk : ChunkRow :=
  { id := 0, file_id := 1, chunk_index := 0, size := 1, checksum := 0,
    status := ChunkStatus.stored }

/-- Witness for C10: the single chunk's only replica yields nothing, so the
file is marked corrupted with a `chunk_not_found` entry. -/
theorem c10_unreachable_chunk_corrupted_witness :
    (c1_db.files.find? (fun x => x.id == 1) = some c1_file)
    ∧ (c10_chunk ∈ c1_db.chunks.filter (fun c => c.file_id == 1))
    ∧ (fetchChunkData (fun _ _ => none) (replicaNodes c1_db c10_chunk.id) c10_chunk.id = none)
    ∧ ((verify_file_integrity demoHash (fun _ _ => none) c1_db 1).2.status
        = VerifyStatus.corrupted
      ∧ CorruptedEntry.chunk_not_found c10_chunk.id
          ∈ (verify_file_integrity demoHash (fun _ _ => none) c1_db 1).2.corrupted_chunks
      ∧ (((verify_file_integrity demoHash (fun _ _ => none) c1_db 1).1.files.find?
          (fun x => x.id == 1)).map (fun x => x.status)) = some FileStatus.corrupted) :=
  ⟨by decide, by decide, by decide,
    c10_unreachable_chunk_corrupted demoHash (fun _ _ => none) c1_db 1 c1_file c10_chunk
      (by decide) (by decide) (by decide)⟩

/-- An unexpired share of file 1 with access counter 5. -/
def c8_share : ShareRow :=
  { id := 3, file_id := 1, owner_id := 10, share_token := 77, expires_at := none,
    access_count := 5 }

/-- Metadata store holding file 1, its chunk and replica, and `c8_share`. -/
def c8_db : MetaDB :=
  { files := [c1_file],
    chunks := [{ id := 0, file_id := 1, chunk_index := 0, size := 1, checksum := 0,
                 status := ChunkStatus.stored }],
    replicas := [{ chunk_id := 0, storage_node_id := "http://localhost:8001" }],
    shares := [c8_share] }

/-- C8: the claim says a successful shared fetch increments the access
counter by exactly one.  Counterexample: when the share info is served from
the cache, `FileShare(**cached_share)` builds a detached object, so
`share_record.access_count += 1; db.commit()` persists nothing — the fetch
succeeds with the payload but the committed share row still holds
`access_count = 5`. -/
theorem c8_counterexample :
    (download_shared_file 77 1000 (some c8_share) (fun _ => none)
        (fun _ _ => some [42]) c8_db).1 = Except.ok [42]
    ∧ (download_shared_file 77 1000 (some c8_share) (fun _ => none)
        (fun _ _ => some [42]) c8_db).2 = c8_db := by
  constructor <;> rfl

/-- C8 (amended): a fetch through a share whose `expires_at` is past fails
with `Expired` and leaves the database — in particular the access counter —
unchanged, on both the cache and the database paths.  A successful fetch
increments the committed access counter of the share by exactly one when
the share record was loaded from the database; when it was served from the
share-info cache, the increment is applied to a detached copy and the
committed state is unchanged. -/
theorem c8_share_expiry_and_counter (token now : Nat) (cached : Option ShareRow)
    (cc : Nat → Option Bytes) (resp : String → Nat → Option Bytes) (db : MetaDB)
    (s : ShareRow) (fromCache : Bool)
    (hres : resolveShare token cached db = some (s, fromCache)) :
    (expiredCheck s now = true →
      download_shared_file token now cached cc resp db = (Except.error DlErr.expired, db))
    ∧ (expiredCheck s now = false → fromCache = false →
      (download_shared_file token now cached cc resp db).2.shares
          = db.shares.map (fun x => if x.share_token == token then
              { x with access_count := x.access_count + 1 } else x)
        ∧ (download_shared_file token now cached cc resp db).2.files = db.files
        ∧ (download_shared_file token now cached cc resp db).2.chunks = db.chunks
        ∧ (download_shared_file token now cached cc resp db).2.replicas = db.replicas)
    ∧ (expiredCheck s now = false → fromCache = true →
      (download_shared_file token now cached cc resp db).2 = db) := by
  have heq : download_shared_file token now cached cc resp db =
      (if expiredCheck s now then (Except.error DlErr.expired, db)
       else
        match (incrementShare db token fromCache).files.find?
            (fun f => f.id == s.file_id) with
        | none => (Except.error DlErr.notFound, incrementShare db token fromCache)
        | some _ =>
          (fetchFileBytes s.file_id cc resp (incrementShare db token fromCache),
            incrementShare db token fromCache)) := by
    unfold download_shared_file
    rw [hres]
  refine ⟨?_, ?_, ?_⟩
  · intro hexp
    rw [heq, hexp]
    rfl
  · intro hexp hfc
    subst hfc
    rw [heq, hexp]
    simp only [Bool.false_eq_true, if_false]
    cases hfind : (incrementShare db token false).files.find?
        (fun f => f.id == s.file_id) with
    | none => simp [incrementShare]
    | some g => simp [incrementShare]
  · intro hexp hfc
    subst hfc
    rw [heq, hexp]
    simp only [Bool.false_eq_true, if_false]
    cases hfind : (incrementShare db token true).files.find?
        (fun f => f.id == s.file_id) with
    | none => simp [incrementShare]
    | some g => simp [incrementShare]

/-- Witness for C8 (amended): the database path on `c8_db` — resolving the
share from the store, not the cache — commits the counter increment
(5 becomes 6) and leaves every other table unchanged; the expired and
cache-path branches hold vacuously at these inputs. -/
theorem c8_share_expiry_and_counter_witness :
    resolveShare 77 none c8_db = some (c8_share, false)
    ∧ ((expiredCheck c8_share 1000 = true →
        download_shared_file 77 1000 none (fun _ => none) (fun _ _ => some [42]) c8_db
          = (Except.error DlErr.expired, c8_db))
      ∧ (expiredCheck c8_share 1000 = false → false = false →
        (download_shared_file 77 1000 none (fun _ => none)
            (fun _ _ => some [42]) c8_db).2.shares
            = c8_db.shares.map (fun x => if x.share_token == 77 then
                { x with access_count := x.access_count + 1 } else x)
          ∧ (download_shared_file 77 1000 none (fun _ => none)
              (fun _ _ => some [42]) c8_db).2.files = c8_db.files
          ∧ (download_shared_file 77 1000 none (fun _ => none)
              (fun _ _ => some [42]) c8_db).2.chunks = c8_db.chunks
          ∧ (download_shared_file 77 1000 none (fun _ => none)
              (fun _ _ => some [42]) c8_db).2.replicas = c8_db.replicas)
      ∧ (expiredCheck c8_share 1000 = false → false = true →
        (download_shared_file 77 1000 none (fun _ => none)
            (fun _ _ => some [42]) c8_db).2 = c8_db)) :=
  ⟨by decide,
    c8_share_expiry_and_counter 77 1000 none (fun _ => none) (fun _ _ => some [42])
      c8_db c8_share false (by decide)⟩

end ChunkVault
